import Mathlib

/-!
Shallow embedding of `sebidude/kubeswitch` (`src/main.go`), a tool that
switches the current context/namespace recorded in a kubeconfig file,
either interactively (a tree of contexts and namespaces) or via
command-line arguments.  Pure logic (argument parsing, context lookup,
the rewrite of the raw configuration, the error classification of the
namespace lister, and the tree's expand/collapse event handler) is
translated into executable Lean definitions; the external effects
(file IO, the cluster API call, the rendering toolkit) appear as
explicit parameters describing their outcomes.
-/

namespace Kubeswitch

/-- Embeds `type ContextAttribute struct` (main.go:25-27): the
per-context attribute block, carrying the recorded namespace
(`yaml:"namespace"`). -/
structure ContextAttribute where
  ActiveNamespace : String
deriving Repr, DecidableEq

/-- Embeds `type Context struct` (main.go:28-31): a named context entry
of the parsed kubeconfig. -/
structure Context where
  Name : String
  Attributes : ContextAttribute
deriving Repr, DecidableEq

/-- Embeds `type config struct` (main.go:33-36): the parsed view of the
kubeconfig used by the tool (`current-context` and the context list). -/
structure config where
  ActiveContext : String
  Contexts : List Context
deriving Repr, DecidableEq

/-- Embeds `type referenceHelper struct` (main.go:38-41): the
(context, namespace) pair a switch action writes back.  The Go field
`namespace` is a Lean keyword, so it is called `nsName` here. -/
structure referenceHelper where
  context : String
  nsName : String
deriving Repr, DecidableEq

/-- Loop body of `contextExists` (main.go:148-152), recursing on the
context list: true on the first entry whose `Name` equals the argument,
false when the loop ends. -/
def contextExistsIn (context : String) : List Context → Bool
  | [] => false
  | ctx :: rest => if context = ctx.Name then true else contextExistsIn context rest

/-- Embeds `contextExists` (main.go:147-155): linear scan over the
loaded configuration's context list. -/
def contextExists (cfg : config) (context : String) : Bool :=
  contextExistsIn context cfg.Contexts

/-- Splitting a character list on `/`: each occurrence of the separator
ends a field, so `n` separators yield `n + 1` fields, possibly empty. -/
def splitSlashAux : List Char → List (List Char)
  | [] => [[]]
  | c :: rest =>
    if c = '/' then [] :: splitSlashAux rest
    else
      match splitSlashAux rest with
      | [] => [[c]]
      | p :: ps => (c :: p) :: ps

/-- Embeds `strings.Split(os.Args[1], "/")` at main.go:129 for the
single-character separator `/`.  Like Go, it returns a singleton list
when no separator occurs and `[""]` on the empty string. -/
def splitOnSlash (s : String) : List String :=
  (splitSlashAux s.data).map List.asString

/-- Embeds the argument interpretation of `quickSwitch` (main.go:124-145)
as a pure function.  `args` is `os.Args[1:]` (the program name dropped,
so Go's `len(os.Args) == 2` is a one-element `args`).  The Go function
calls `switchContext` and `os.Exit(0)` when a pattern matches; here the
matched target is returned as `some`, and the fall-through to
interactive mode is `none`. -/
def quickSwitch (cfg : config) (args : List String) : Option referenceHelper :=
  match args with
  | [] => none
  | [a] =>
    let s := splitOnSlash a
    if s.length = 1 then
      some ⟨cfg.ActiveContext, a⟩
    else if s.length = 2 ∧ contextExists cfg (s.getD 0 "") then
      some ⟨s.getD 0 "", s.getD 1 ""⟩
    else
      none
  | [a, b] => if contextExists cfg a then some ⟨a, b⟩ else none
  | _ => none

/-- One context entry of the raw kubeconfig returned by
`clientcmd.RawConfig()` at main.go:88-92 (an `api.Context` value).
`nsName` is its `Namespace` field, the one leaf `switchContext`
mutates; `cluster`, `user` and `extras` stand for the untouched fields
of the entry (cluster reference, user reference, extensions and any
unrecognized fields), which the rewrite must preserve. -/
structure RawContext where
  cluster : String
  user : String
  nsName : String
  extras : List (String × String)
deriving Repr, DecidableEq

/-- The raw kubeconfig structure (`api.Config`) re-read by
`switchContext` (main.go:88-92) and written back by
`clientcmd.ModifyConfig` (main.go:102).  `contexts` embeds the Go map
`Contexts map[string]*api.Context` as an association list;
`clusters`, `users` and `extras` stand for the parts of the document
the rewrite never touches (cluster definitions, user credentials,
unrecognized fields). -/
structure RawConfig where
  currentContext : String
  contexts : List (String × RawContext)
  clusters : List (String × String)
  users : List (String × String)
  extras : List (String × String)
deriving Repr, DecidableEq

/-- Go map indexing `config.Contexts[name]` (main.go:99): the value for
the first matching key, or `none` when the key is absent (the Go map
yields the zero value `nil` there). -/
def lookupCtx (name : String) : List (String × RawContext) → Option RawContext
  | [] => none
  | (k, c) :: rest => if k = name then some c else lookupCtx name rest

/-- The map write `config.Contexts[rh.context].Namespace = rh.namespace`
(main.go:99) in the case where the entry exists: the entry for `name`
gets its `nsName` field replaced, every other entry is untouched. -/
def setCtxNamespace (name ns : String) : List (String × RawContext) → List (String × RawContext)
  | [] => []
  | (k, c) :: rest =>
    if k = name then (k, { c with nsName := ns }) :: rest
    else (k, c) :: setCtxNamespace name ns rest

/-- The classified error kind the specification claims `switchTo`
reports for an absent context.  The code defines no such error type
(its only error handling in `switchContext` is `log.Fatalln`); the
type exists to state that claim. -/
inductive SwitchError
  | contextNotFound
deriving Repr, DecidableEq

/-- Outcome of `switchContext` (main.go:87-107).  The Go function can
end in exactly two ways: it persists the rewritten raw config and
returns, or it crashes — dereferencing the `nil` returned by
`config.Contexts[rh.context]` for an absent context (main.go:99) is a
runtime nil-pointer panic that aborts the process before anything is
written.  The `reportedError` constructor is never produced by the
code; it exists so that the specification's claimed behavior (a
classified error value returned to the caller) is statable and
comparable with what the code does. -/
inductive SwitchResult
  | persisted (raw : RawConfig)
  | panicked
  | reportedError (e : SwitchError)
deriving Repr, DecidableEq

/-- Embeds `switchContext` (main.go:87-107) acting on the re-read raw
configuration `raw`: sets `CurrentContext` (main.go:98) and the target
context's `Namespace` (main.go:99), then persists the whole structure
(main.go:102).  When `rh.context` is absent from the map, line 99
dereferences `nil` and the process panics with nothing persisted. -/
def switchContext (rh : referenceHelper) (raw : RawConfig) : SwitchResult :=
  match lookupCtx rh.context raw.contexts with
  | none => .panicked
  | some _ => .persisted { raw with
      currentContext := rh.context,
      contexts := setCtxNamespace rh.context rh.nsName raw.contexts }

/-- Re-parsing the persisted document into the tool's `config` view
(main.go:119, `yaml.Unmarshal` into the `config` struct): the
`current-context` field and, per context entry, its name and recorded
namespace. -/
def loadFromRaw (raw : RawConfig) : config :=
  { ActiveContext := raw.currentContext,
    Contexts := raw.contexts.map fun p => ⟨p.1, ⟨p.2.nsName⟩⟩ }

/-- The namespace the loaded configuration records for a context name:
the `ActiveNamespace` of the first context entry with that name. -/
def namespaceOf (cfg : config) (name : String) : Option String :=
  (cfg.Contexts.find? fun c => c.Name == name).map fun c => c.Attributes.ActiveNamespace

/-- The failure kinds of configuration loading and rewriting named by
the specification.  In the code every one of them is reported through
`log.Fatalln` (main.go:112, 116, 120), which terminates the process. -/
inductive ConfigError
  | ioFailure
  | emptyFile
  | parseFailure
deriving Repr, DecidableEq

/-- Outcome of `ioutil.ReadFile` at main.go:110: an error, or the raw
bytes of the configuration file. -/
inductive ReadResult
  | err
  | ok (content : List Nat)
deriving Repr, DecidableEq

/-- Embeds `loadConfig` (main.go:109-122).  The file read and the YAML
parse are external calls, passed in as `read` (the bytes or a read
error) and `parse` (what `yaml.Unmarshal` yields on those bytes).  The
checks run in source order: read error (main.go:111), zero length
(main.go:115), parse error (main.go:119); any error is fatal to the
process via `log.Fatalln`. -/
def loadConfig (read : ReadResult) (parse : List Nat → Option config) :
    Except ConfigError config :=
  match read with
  | .err => .error .ioFailure
  | .ok content =>
    if content.length = 0 then .error .emptyFile
    else
      match parse content with
      | none => .error .parseFailure
      | some cfg => .ok cfg

/-- Outcome of the `ClientConfig()` construction at main.go:50-55, as
the type switch at main.go:58 distinguishes it: success, the specific
dynamic type `clientcmd.errConfigurationInvalid`, or any other error. -/
inductive ClientConfigOutcome
  | ok
  | errConfigurationInvalid
  | otherError
deriving Repr, DecidableEq

/-- Outcome of `kubernetes.NewForConfig` at main.go:67. -/
inductive NewForConfigOutcome
  | ok
  | err
deriving Repr, DecidableEq

/-- Outcome of the `Namespaces().List` API call at main.go:72, as the
type switch at main.go:74 distinguishes it: the namespace names, a
`*url.Error`, a `*apierrors.StatusError` carrying the server's
message, or any other error. -/
inductive ListOutcome
  | ok (namespaces : List String)
  | urlError
  | statusError (msg : String)
  | otherError
deriving Repr, DecidableEq

/-- The classified error values `getNamespacesInContextsCluster`
returns: `configInvalid` is the string `error in config file`
(main.go:59), `unreachable` is `unreachable` (main.go:76), `apiError`
is `error from api: ...` (main.go:78), `unknown` is `error`
(main.go:80). -/
inductive ListError
  | configInvalid
  | unreachable
  | apiError (msg : String)
  | unknown
deriving Repr, DecidableEq

/-- How a call of `getNamespacesInContextsCluster` ends: a namespace
list, a classified error value returned to the caller (the process
continues), or `log.Fatalln` (main.go:62, 69), which terminates the
process. -/
inductive ListResult
  | ok (namespaces : List String)
  | reported (e : ListError)
  | fatal
deriving Repr, DecidableEq

/-- Embeds `getNamespacesInContextsCluster` (main.go:49-85) as a
function of the outcomes of its three external calls, taken in source
order: client-config construction (main.go:50-63), clientset
construction (main.go:67-70), the namespace list request
(main.go:72-82). -/
def getNamespacesInContextsCluster (cc : ClientConfigOutcome)
    (nf : NewForConfigOutcome) (ls : ListOutcome) : ListResult :=
  match cc with
  | .errConfigurationInvalid => .reported .configInvalid
  | .otherError => .fatal
  | .ok =>
    match nf with
    | .err => .fatal
    | .ok =>
      match ls with
      | .urlError => .reported .unreachable
      | .statusError msg => .reported (.apiError msg)
      | .otherError => .reported .unknown
      | .ok nss => .ok nss

/-- The state of one context node of the selection tree built in `main`
(main.go:173-221).  `expanded` is the tview expanded flag (nodes start
collapsed, main.go:176); `children` is the list of namespace child
nodes added at main.go:202-216, by name; `errorMsg` is the failure
rendered inline on the node's label (main.go:185-186), cleared on a
successful fetch (main.go:188-194); `fetchCount` counts how many times
the node's handler has invoked `getNamespacesInContextsCluster`
(main.go:183), recording the fetch history the temporal claims are
about. -/
structure NodeState where
  expanded : Bool
  children : List String
  errorMsg : Option ListError
  fetchCount : Nat
deriving Repr, DecidableEq

/-- A fresh context node as built at main.go:174-176: collapsed, no
children, no error, never fetched. -/
def initNode : NodeState :=
  { expanded := false, children := [], errorMsg := none, fetchCount := 0 }

/-- The selection tree's state: one `NodeState` per context (in the
order of `kubeconfig.Contexts`), plus the global `expandedNode` pointer
(main.go:45, 169): the index of the node it points at, or `none` while
it still holds the dummy node created at main.go:169 (whose `Collapse`
touches no real node). -/
structure TreeState where
  nodes : List NodeState
  expandedNode : Option Nat
deriving Repr, DecidableEq

/-- The tree as `main` builds it for `n` contexts (main.go:166-221):
every context node collapsed and unpopulated, `expandedNode` on the
dummy. -/
def initTreeState (n : Nat) : TreeState :=
  { nodes := List.replicate n initNode, expandedNode := none }

/-- Applies `f` to the `i`-th element of a list, leaving every other
element (and a list too short to have an `i`-th element) unchanged. -/
def updateNode (f : NodeState → NodeState) : Nat → List NodeState → List NodeState
  | _, [] => []
  | 0, x :: xs => f x :: xs
  | n + 1, x :: xs => x :: updateNode f n xs

/-- The `i`-th node of the list, defaulting to a fresh node. -/
def nodeAt (l : List NodeState) (i : Nat) : NodeState :=
  l.getD i initNode

/-- The namespaces the handler iterates over at main.go:202: the fetched
items on success, and the empty slice `[]k8s.Namespace{}` the lister
returns alongside every error. -/
def fetchedList (fetch : Except ListError (List String)) : List String :=
  match fetch with
  | .ok l => l
  | .error _ => []

/-- What one firing of the selected-handler does to its own node
(main.go:183-216): invokes the fetch (main.go:183), records or clears
the inline error (main.go:184-194), toggles the expanded flag
(`SetExpanded(!IsExpanded())`, main.go:195), and appends one child per
fetched namespace (main.go:202-216). -/
def applySelect (fetch : Except ListError (List String)) (n : NodeState) : NodeState :=
  { n with
    fetchCount := n.fetchCount + 1,
    errorMsg := match fetch with | .error e => some e | .ok _ => none,
    expanded := !n.expanded,
    children := n.children ++ fetchedList fetch }

/-- Embeds one firing of a context node's selected-handler
(main.go:181-217) on the tree state.  `i` is the node's index and
`fetch` the outcome `getNamespacesInContextsCluster` produces on this
invocation.  Node `i` is updated by `applySelect`; then, mirroring
main.go:197-200, if the node is now expanded (its flag was `false`
before the toggle) and the `expandedNode` pointer names a different
node, that node is collapsed and the pointer moves here.  An index
with no node is a no-op (the toolkit only fires handlers of existing
nodes). -/
def selectNode (s : TreeState) (i : Nat) (fetch : Except ListError (List String)) : TreeState :=
  if i < s.nodes.length then
    if (nodeAt s.nodes i).expanded = false ∧ s.expandedNode ≠ some i then
      { nodes := match s.expandedNode with
          | some j => updateNode (fun n => { n with expanded := false }) j
                        (updateNode (applySelect fetch) i s.nodes)
          | none => updateNode (applySelect fetch) i s.nodes,
        expandedNode := some i }
    else
      { nodes := updateNode (applySelect fetch) i s.nodes,
        expandedNode := s.expandedNode }
  else s

/-- A session: the sequence of selected-events fired on context nodes,
each with the fetch outcome observed at that moment. -/
def runEvents (s : TreeState) : List (Nat × Except ListError (List String)) → TreeState
  | [] => s
  | (i, fetch) :: rest => runEvents (selectNode s i fetch) rest

/-- At most one context node reports `expanded`. -/
def atMostOneExpanded (s : TreeState) : Prop :=
  ∀ j k, j < s.nodes.length → k < s.nodes.length →
    (nodeAt s.nodes j).expanded = true → (nodeAt s.nodes k).expanded = true → j = k

/-- The invariant tying the expanded flags to the `expandedNode`
pointer: every expanded node is the one the pointer names. -/
def treeInv (s : TreeState) : Prop :=
  ∀ j, j < s.nodes.length → (nodeAt s.nodes j).expanded = true → s.expandedNode = some j

/-- The startup phase of `main` (main.go:157-225) up to the point where
the selection tree exists: `loadConfig` first (fatal on any error, no
tree); then `quickSwitch`, which exits the process after a matched
switch (no tree); otherwise the tree is built with one node per
context. -/
def mainBuildsTree (read : ReadResult) (parse : List Nat → Option config)
    (args : List String) : Option TreeState :=
  match loadConfig read parse with
  | .error _ => none
  | .ok cfg =>
    match quickSwitch cfg args with
    | some _ => none
    | none => some (initTreeState cfg.Contexts.length)

/-! Concrete fixtures used by witnesses and counterexamples. -/

/-- A small loaded configuration: active context `ctx0`, contexts
`ctx0` and `ctxA`. -/
def cfgA : config :=
  { ActiveContext := "ctx0",
    Contexts := [⟨"ctx0", ⟨"ns0"⟩⟩, ⟨"ctxA", ⟨"nsA"⟩⟩] }

/-- A loaded configuration whose active context `ghost` names no entry
of its context list. -/
def cfgGhost : config :=
  { ActiveContext := "ghost", Contexts := [⟨"ctxA", ⟨"nsA"⟩⟩] }

/-- A small raw kubeconfig with the single context `ctxA`, with cluster
definitions, user credentials and unrecognized fields present. -/
def rawA : RawConfig :=
  { currentContext := "ctxA",
    contexts := [("ctxA", { cluster := "clusterA", user := "userA",
                            nsName := "ns0", extras := [("ext", "v")] })],
    clusters := [("clusterA", "serverA")],
    users := [("userA", "credA")],
    extras := [("preferences", "p")] }

/-! Helper lemmas. -/

theorem contextExistsIn_iff (n : String) (l : List Context) :
    contextExistsIn n l = true ↔ ∃ ctx ∈ l, ctx.Name = n := by
  induction l with
  | nil => simp [contextExistsIn]
  | cons c rest ih =>
    simp only [contextExistsIn]
    by_cases h : n = c.Name
    · simp [h]
    · simp only [if_neg h, ih]
      constructor
      · rintro ⟨ctx, hmem, hname⟩
        exact ⟨ctx, List.mem_cons_of_mem _ hmem, hname⟩
      · rintro ⟨ctx, hmem, hname⟩
        rcases List.mem_cons.mp hmem with hc | hr
        · exact absurd (hc ▸ hname) (fun e => h e.symm)
        · exact ⟨ctx, hr, hname⟩

theorem quickSwitch_one_arg_no_sep (cfg : config) (a : String)
    (h : (splitOnSlash a).length = 1) :
    quickSwitch cfg [a] = some ⟨cfg.ActiveContext, a⟩ := by
  simp [quickSwitch, h]

theorem quickSwitch_one_arg_two_parts (cfg : config) (a p1 p2 : String)
    (h : splitOnSlash a = [p1, p2]) :
    quickSwitch cfg [a] =
      if contextExists cfg p1 then some ⟨p1, p2⟩ else none := by
  by_cases hc : contextExists cfg p1 = true
  · simp [quickSwitch, h, hc]
  · simp only [Bool.not_eq_true] at hc
    simp [quickSwitch, h, hc]

theorem switchContext_of_lookup_none (rh : referenceHelper) (raw : RawConfig)
    (h : lookupCtx rh.context raw.contexts = none) :
    switchContext rh raw = .panicked := by
  unfold switchContext
  rw [h]

theorem switchContext_of_lookup_some (rh : referenceHelper) (raw : RawConfig)
    (c0 : RawContext) (h : lookupCtx rh.context raw.contexts = some c0) :
    switchContext rh raw = .persisted { raw with
      currentContext := rh.context,
      contexts := setCtxNamespace rh.context rh.nsName raw.contexts } := by
  unfold switchContext
  rw [h]

theorem lookupCtx_set_self (name ns : String) (l : List (String × RawContext)) :
    lookupCtx name (setCtxNamespace name ns l) =
      (lookupCtx name l).map fun c => { c with nsName := ns } := by
  induction l with
  | nil => rfl
  | cons p rest ih =>
    obtain ⟨k, c⟩ := p
    by_cases h : k = name
    · simp [setCtxNamespace, lookupCtx, h]
    · simp [setCtxNamespace, lookupCtx, h, ih]

theorem lookupCtx_set_ne (k name ns : String) (l : List (String × RawContext))
    (h : k ≠ name) :
    lookupCtx k (setCtxNamespace name ns l) = lookupCtx k l := by
  induction l with
  | nil => rfl
  | cons p rest ih =>
    obtain ⟨k', c⟩ := p
    by_cases h1 : k' = name
    · have h2 : k' ≠ k := fun e => h (e ▸ h1)
      simp [setCtxNamespace, lookupCtx, h1, h2, Ne.symm h]
    · by_cases h2 : k' = k
      · simp [setCtxNamespace, lookupCtx, h1, h2, h]
      · simp [setCtxNamespace, lookupCtx, h1, h2, h, ih]

theorem setCtxNamespace_keys (name ns : String) (l : List (String × RawContext)) :
    (setCtxNamespace name ns l).map Prod.fst = l.map Prod.fst := by
  induction l with
  | nil => rfl
  | cons p rest ih =>
    obtain ⟨k, c⟩ := p
    by_cases h : k = name
    · simp [setCtxNamespace, h]
    · simp [setCtxNamespace, h, ih]

theorem namespaceOf_loadFromRaw (raw : RawConfig) (k : String) :
    namespaceOf (loadFromRaw raw) k =
      (lookupCtx k raw.contexts).map (fun c => c.nsName) := by
  obtain ⟨ac, l, cs, us, ex⟩ := raw
  simp only
  induction l with
  | nil => rfl
  | cons p rest ih =>
    obtain ⟨k', c⟩ := p
    by_cases h : k' = k
    · simp [loadFromRaw, namespaceOf, lookupCtx, List.find?, h]
    · simp only [loadFromRaw, namespaceOf, List.map_cons, List.find?] at ih ⊢
      rw [show ((⟨k', ⟨c.nsName⟩⟩ : Context).Name == k) = false by
        simpa using h]
      simp only [lookupCtx, if_neg h]
      exact ih

theorem length_updateNode (f : NodeState → NodeState) (i : Nat) (l : List NodeState) :
    (updateNode f i l).length = l.length := by
  induction l generalizing i with
  | nil => cases i <;> rfl
  | cons x xs ih =>
    cases i with
    | zero => rfl
    | succ n => simp [updateNode, ih]

theorem nodeAt_updateNode_self (f : NodeState → NodeState) (i : Nat)
    (l : List NodeState) (h : i < l.length) :
    nodeAt (updateNode f i l) i = f (nodeAt l i) := by
  induction l generalizing i with
  | nil => exact absurd h (by simp)
  | cons x xs ih =>
    cases i with
    | zero => rfl
    | succ n =>
      simp only [updateNode, nodeAt, List.getD_cons_succ]
      exact ih n (by simpa using h)

theorem nodeAt_updateNode_ne (f : NodeState → NodeState) (i j : Nat)
    (l : List NodeState) (h : i ≠ j) :
    nodeAt (updateNode f i l) j = nodeAt l j := by
  induction l generalizing i j with
  | nil => cases i <;> rfl
  | cons x xs ih =>
    cases i with
    | zero =>
      cases j with
      | zero => exact absurd rfl h
      | succ m => rfl
    | succ n =>
      cases j with
      | zero => rfl
      | succ m =>
        simp only [updateNode, nodeAt, List.getD_cons_succ]
        exact ih n m (fun e => h (by rw [e]))

theorem nodeAt_replicate_initNode (n j : Nat) :
    nodeAt (List.replicate n initNode) j = initNode := by
  induction n generalizing j with
  | zero => cases j <;> rfl
  | succ m ih =>
    cases j with
    | zero => rfl
    | succ k => simp only [List.replicate, nodeAt, List.getD_cons_succ]; exact ih k


theorem nodeAt_of_length_le (l : List NodeState) (j : Nat) (h : l.length ≤ j) :
    nodeAt l j = initNode := by
  simp [nodeAt, List.getD, List.getElem?_eq_none h]

theorem length_selectNode (s : TreeState) (i : Nat)
    (fetch : Except ListError (List String)) :
    (selectNode s i fetch).nodes.length = s.nodes.length := by
  unfold selectNode
  split
  · split
    · cases s.expandedNode <;> simp [length_updateNode]
    · simp [length_updateNode]
  · rfl

theorem nodeAt_selectNode_self (s : TreeState) (i : Nat)
    (fetch : Except ListError (List String)) (h : i < s.nodes.length) :
    nodeAt (selectNode s i fetch).nodes i = applySelect fetch (nodeAt s.nodes i) := by
  unfold selectNode
  rw [if_pos h]
  by_cases hcond : (nodeAt s.nodes i).expanded = false ∧ s.expandedNode ≠ some i
  · rw [if_pos hcond]
    cases hEN : s.expandedNode with
    | none => exact nodeAt_updateNode_self _ _ _ h
    | some j0 =>
      have hne : j0 ≠ i := fun e => hcond.2 (by rw [hEN, e])
      show nodeAt (updateNode _ j0 (updateNode (applySelect fetch) i s.nodes)) i = _
      rw [nodeAt_updateNode_ne _ _ _ _ hne]
      exact nodeAt_updateNode_self _ _ _ h
  · rw [if_neg hcond]
    exact nodeAt_updateNode_self _ _ _ h

theorem treeInv_selectNode (s : TreeState) (i : Nat)
    (fetch : Except ListError (List String)) (hinv : treeInv s) :
    treeInv (selectNode s i fetch) := by
  unfold selectNode
  by_cases hi : i < s.nodes.length
  · rw [if_pos hi]
    by_cases hcond : (nodeAt s.nodes i).expanded = false ∧ s.expandedNode ≠ some i
    · rw [if_pos hcond]
      cases hEN : s.expandedNode with
      | none =>
        intro j hj hexp
        simp only [length_updateNode] at hj
        by_cases hji : j = i
        · simp [hji]
        · exfalso
          rw [nodeAt_updateNode_ne _ _ _ _ (fun e => hji e.symm)] at hexp
          have := hinv j hj hexp
          rw [hEN] at this
          exact Option.noConfusion this
      | some j0 =>
        intro j hj hexp
        simp only [length_updateNode] at hj
        by_cases hji : j = i
        · simp [hji]
        · exfalso
          by_cases hjj0 : j = j0
          · subst hjj0
            rw [nodeAt_updateNode_self _ _ _
              (by rw [length_updateNode]; exact hj)] at hexp
            simp at hexp
          · rw [nodeAt_updateNode_ne _ _ _ _ (fun e => hjj0 e.symm)] at hexp
            rw [nodeAt_updateNode_ne _ _ _ _ (fun e => hji e.symm)] at hexp
            have := hinv j hj hexp
            rw [hEN] at this
            exact hjj0 (Option.some.inj this).symm
    · rw [if_neg hcond]
      push_neg at hcond
      intro j hj hexp
      simp only [length_updateNode] at hj
      by_cases hji : j = i
      · subst hji
        rw [nodeAt_updateNode_self _ _ _ hj] at hexp
        simp only [applySelect, Bool.not_eq_true'] at hexp
        exact hcond hexp
      · rw [nodeAt_updateNode_ne _ _ _ _ (fun e => hji e.symm)] at hexp
        exact hinv j hj hexp
  · rw [if_neg hi]
    exact hinv

theorem treeInv_initTreeState (n : Nat) : treeInv (initTreeState n) := by
  intro j hj hexp
  rw [show (initTreeState n).nodes = List.replicate n initNode from rfl,
      nodeAt_replicate_initNode] at hexp
  exact absurd hexp (by simp [initNode])

theorem treeInv_runEvents (s : TreeState)
    (events : List (Nat × Except ListError (List String))) (hinv : treeInv s) :
    treeInv (runEvents s events) := by
  induction events generalizing s with
  | nil => exact hinv
  | cons e rest ih =>
    obtain ⟨i, f⟩ := e
    exact ih _ (treeInv_selectNode s i f hinv)

theorem atMostOne_of_treeInv (s : TreeState) (h : treeInv s) :
    atMostOneExpanded s := by
  intro j k hj hk ej ek
  have h1 := h j hj ej
  have h2 := h k hk ek
  rw [h1] at h2
  exact Option.some.inj h2

theorem expand_other_collapses (s : TreeState) (a b : Nat)
    (fetch : Except ListError (List String)) (hinv : treeInv s) (hab : a ≠ b)
    (hb : b < s.nodes.length)
    (haexp : (nodeAt s.nodes a).expanded = true) :
    (nodeAt (selectNode s b fetch).nodes a).expanded = false ∧
    (nodeAt (selectNode s b fetch).nodes b).expanded = true := by
  have ha : a < s.nodes.length := by
    by_contra hge
    rw [nodeAt_of_length_le _ _ (le_of_not_lt hge)] at haexp
    simp [initNode] at haexp
  have hEN : s.expandedNode = some a := hinv a ha haexp
  have hbexp : (nodeAt s.nodes b).expanded = false := by
    cases hbe : (nodeAt s.nodes b).expanded
    · rfl
    · exact absurd (Option.some.inj (hEN.symm.trans (hinv b hb hbe))) hab
  have hcond : (nodeAt s.nodes b).expanded = false ∧ s.expandedNode ≠ some b :=
    ⟨hbexp, by rw [hEN]; exact fun e => hab (Option.some.inj e)⟩
  have hsel : selectNode s b fetch =
      ⟨updateNode (fun n => { n with expanded := false }) a
        (updateNode (applySelect fetch) b s.nodes), some b⟩ := by
    unfold selectNode
    rw [if_pos hb, if_pos hcond, hEN]
  rw [hsel]
  constructor
  · rw [show (⟨updateNode (fun n => { n with expanded := false }) a
        (updateNode (applySelect fetch) b s.nodes), some b⟩ : TreeState).nodes =
        updateNode (fun n => { n with expanded := false }) a
          (updateNode (applySelect fetch) b s.nodes) from rfl,
      nodeAt_updateNode_self _ _ _ (by rw [length_updateNode]; exact ha)]
  · rw [show (⟨updateNode (fun n => { n with expanded := false }) a
        (updateNode (applySelect fetch) b s.nodes), some b⟩ : TreeState).nodes =
        updateNode (fun n => { n with expanded := false }) a
          (updateNode (applySelect fetch) b s.nodes) from rfl,
      nodeAt_updateNode_ne _ _ _ _ hab,
      nodeAt_updateNode_self _ _ _ hb]
    simp [applySelect, hbexp]

/-! Claim theorems. -/

/-- Claim C1: for every raw configuration and every target whose context
is present, the switch persists a configuration whose active context
equals `target.context` and whose entry for that context records
`target.namespace`, while everything the rewrite does not touch —
cluster definitions, user credentials, the other contexts' entries, the
touched context's other fields, unrecognized fields, and the order of
the context entries — is preserved; loading the persisted document
yields that active context and recorded namespace. -/
theorem switchTo_roundtrip (raw : RawConfig) (t : referenceHelper) (c0 : RawContext)
    (h : lookupCtx t.context raw.contexts = some c0) :
    ∃ raw2, switchContext t raw = .persisted raw2 ∧
      (loadFromRaw raw2).ActiveContext = t.context ∧
      namespaceOf (loadFromRaw raw2) t.context = some t.nsName ∧
      raw2.clusters = raw.clusters ∧
      raw2.users = raw.users ∧
      raw2.extras = raw.extras ∧
      lookupCtx t.context raw2.contexts = some { c0 with nsName := t.nsName } ∧
      (∀ k, k ≠ t.context → lookupCtx k raw2.contexts = lookupCtx k raw.contexts) ∧
      raw2.contexts.map Prod.fst = raw.contexts.map Prod.fst := by
  refine ⟨_, switchContext_of_lookup_some t raw c0 h, rfl, ?_, rfl, rfl, rfl, ?_, ?_, ?_⟩
  · rw [namespaceOf_loadFromRaw]
    show (lookupCtx t.context (setCtxNamespace t.context t.nsName raw.contexts)).map _ = _
    rw [lookupCtx_set_self, h]
    rfl
  · show lookupCtx t.context (setCtxNamespace t.context t.nsName raw.contexts) = _
    rw [lookupCtx_set_self, h]
    rfl
  · intro k hk
    exact lookupCtx_set_ne k t.context t.nsName raw.contexts hk
  · exact setCtxNamespace_keys t.context t.nsName raw.contexts

/-- Witness for `switchTo_roundtrip` on the concrete configuration
`rawA` and the target `(ctxA, ns9)`. -/
theorem switchTo_roundtrip_check :
    lookupCtx "ctxA" rawA.contexts =
      some ⟨"clusterA", "userA", "ns0", [("ext", "v")]⟩ ∧
    ∃ raw2, switchContext ⟨"ctxA", "ns9"⟩ rawA = .persisted raw2 ∧
      (loadFromRaw raw2).ActiveContext = "ctxA" ∧
      namespaceOf (loadFromRaw raw2) "ctxA" = some "ns9" := by
  refine ⟨by decide, ?_⟩
  obtain ⟨raw2, h1, h2, h3, _⟩ :=
    switchTo_roundtrip rawA ⟨"ctxA", "ns9"⟩
      ⟨"clusterA", "userA", "ns0", [("ext", "v")]⟩ (by decide)
  exact ⟨raw2, h1, h2, h3⟩

/-- Claim C2 counterexample: one context node, two consecutive select
events each fetching `["ns1"]`.  The second press does collapse the
node, but the fetch has then run twice and the namespace child has been
appended a second time — population is not at-most-once and the second
toggle is not a pure visibility flip. -/
theorem select_twice_refetches_cex :
    (nodeAt (runEvents (initTreeState 1)
      [(0, .ok ["ns1"]), (0, .ok ["ns1"])]).nodes 0).fetchCount = 2 ∧
    (nodeAt (runEvents (initTreeState 1)
      [(0, .ok ["ns1"]), (0, .ok ["ns1"])]).nodes 0).children = ["ns1", "ns1"] ∧
    (nodeAt (runEvents (initTreeState 1)
      [(0, .ok ["ns1"]), (0, .ok ["ns1"])]).nodes 0).expanded = false :=
  ⟨by decide, by decide, by decide⟩

/-- Claim C2 (amended): a select event on a context node — populated or
not — always invokes the namespace fetch once more and appends the
fetched namespaces to the node's children; the expanded flag is
toggled, so an event on an expanded node does collapse it. -/
theorem select_toggles_but_refetches (s : TreeState) (i : Nat)
    (fetch : Except ListError (List String)) (h : i < s.nodes.length) :
    (nodeAt (selectNode s i fetch).nodes i).fetchCount =
      (nodeAt s.nodes i).fetchCount + 1 ∧
    (nodeAt (selectNode s i fetch).nodes i).children =
      (nodeAt s.nodes i).children ++ fetchedList fetch ∧
    (nodeAt (selectNode s i fetch).nodes i).expanded =
      !(nodeAt s.nodes i).expanded := by
  rw [nodeAt_selectNode_self s i fetch h]
  exact ⟨rfl, rfl, rfl⟩

/-- Witness for `select_toggles_but_refetches` on a freshly built
one-node tree. -/
theorem select_toggles_but_refetches_check :
    (0 : Nat) < (initTreeState 1).nodes.length ∧
    (nodeAt (selectNode (initTreeState 1) 0 (.ok ["ns1"])).nodes 0).fetchCount =
      (nodeAt (initTreeState 1).nodes 0).fetchCount + 1 :=
  ⟨by decide,
   (select_toggles_but_refetches (initTreeState 1) 0 (.ok ["ns1"]) (by decide)).1⟩

/-- Claim C3 counterexample: switching to the absent context `missing`
on the concrete raw configuration `rawA` ends in the nil-pointer panic
of main.go:99, not in a reported `contextNotFound` error value. -/
theorem switch_absent_cex :
    switchContext ⟨"missing", "ns1"⟩ rawA = .panicked ∧
    switchContext ⟨"missing", "ns1"⟩ rawA ≠ .reportedError .contextNotFound :=
  ⟨by decide, by decide⟩

/-- Claim C3 (amended): for every target whose context name is absent
from the raw persisted configuration at write time, the switch crashes
the process (nil map entry dereferenced at main.go:99) with nothing
persisted, rather than returning a classified error value. -/
theorem switch_absent_panics (rh : referenceHelper) (raw : RawConfig)
    (h : lookupCtx rh.context raw.contexts = none) :
    switchContext rh raw = .panicked :=
  switchContext_of_lookup_none rh raw h

/-- Witness for `switch_absent_panics` on `rawA`. -/
theorem switch_absent_panics_check :
    lookupCtx "missing" rawA.contexts = none ∧
    switchContext ⟨"missing", "ns1"⟩ rawA = .panicked :=
  ⟨by decide, switch_absent_panics ⟨"missing", "ns1"⟩ rawA (by decide)⟩

/-- Claim C4: after any sequence of select events on the freshly built
tree, at most one context node is expanded; and selecting context `b`
while a different context `a` is expanded leaves `a` collapsed and `b`
expanded. -/
theorem at_most_one_expanded :
    (∀ (n : Nat) (events : List (Nat × Except ListError (List String))),
      atMostOneExpanded (runEvents (initTreeState n) events)) ∧
    (∀ (n : Nat) (events : List (Nat × Except ListError (List String)))
        (a b : Nat) (fetch : Except ListError (List String)),
      a ≠ b →
      b < (runEvents (initTreeState n) events).nodes.length →
      (nodeAt (runEvents (initTreeState n) events).nodes a).expanded = true →
      (nodeAt (selectNode (runEvents (initTreeState n) events) b fetch).nodes a).expanded
          = false ∧
      (nodeAt (selectNode (runEvents (initTreeState n) events) b fetch).nodes b).expanded
          = true) := by
  constructor
  · intro n events
    exact atMostOne_of_treeInv _ (treeInv_runEvents _ _ (treeInv_initTreeState n))
  · intro n events a b fetch hab hb haexp
    exact expand_other_collapses _ a b fetch
      (treeInv_runEvents _ _ (treeInv_initTreeState n)) hab hb haexp

/-- Witness for `at_most_one_expanded`: a two-context tree where
context 0 is expanded and context 1 is then selected. -/
theorem at_most_one_expanded_check :
    (0 : Nat) ≠ 1 ∧
    1 < (runEvents (initTreeState 2) [(0, Except.ok [])]).nodes.length ∧
    (nodeAt (runEvents (initTreeState 2) [(0, Except.ok [])]).nodes 0).expanded = true ∧
    (nodeAt (selectNode (runEvents (initTreeState 2) [(0, Except.ok [])])
        1 (Except.ok [])).nodes 0).expanded = false ∧
    (nodeAt (selectNode (runEvents (initTreeState 2) [(0, Except.ok [])])
        1 (Except.ok [])).nodes 1).expanded = true := by
  refine ⟨by decide, by decide, by decide, ?_⟩
  exact at_most_one_expanded.2 2 [(0, Except.ok [])] 0 1 (Except.ok [])
    (by decide) (by decide) (by decide)

/-- Claim C5 counterexample: when the client-config construction fails
with an error whose dynamic type is not `clientcmd.errConfigurationInvalid`,
the function reaches `log.Fatalln` (main.go:62): the process terminates
instead of one of the four classified error values being returned. -/
theorem lister_fatal_cex :
    getNamespacesInContextsCluster .otherError .ok (.ok []) = .fatal := by
  decide

/-- Claim C5 (amended): failures of the namespace list request itself
are classified and returned as `unreachable`, `apiError` (carrying the
server's message) or `unknown`, and an invalid-client-configuration
construction failure as `configInvalid`, the process continuing in all
four cases; but a client-config construction failure of any other kind,
and a clientset construction failure, terminate the process. -/
theorem lister_classification (cc : ClientConfigOutcome)
    (nf : NewForConfigOutcome) (ls : ListOutcome) :
    (getNamespacesInContextsCluster cc nf ls = .fatal ↔
      cc = .otherError ∨ (cc = .ok ∧ nf = .err)) ∧
    (cc = .errConfigurationInvalid →
      getNamespacesInContextsCluster cc nf ls = .reported .configInvalid) ∧
    (cc = .ok → nf = .ok →
      getNamespacesInContextsCluster cc nf ls =
        match ls with
        | .ok nss => .ok nss
        | .urlError => .reported .unreachable
        | .statusError m => .reported (.apiError m)
        | .otherError => .reported .unknown) := by
  cases cc <;> cases nf <;> cases ls <;> simp [getNamespacesInContextsCluster]

/-- Witness for `lister_classification`: a network-level failure of the
list request is reported as `unreachable`. -/
theorem lister_classification_check :
    getNamespacesInContextsCluster .ok .ok .urlError = .reported .unreachable :=
  (lister_classification .ok .ok .urlError).2.2 rfl rfl

/-- Claim C6 counterexample: the single argument `ctxA/` splits into
`["ctxA", ""]` — the second part is empty — yet, context `ctxA` being
present, quick-switch still produces the target `(ctxA, "")`: no
emptiness check exists in the code. -/
theorem quickswitch_empty_part_cex :
    splitOnSlash "ctxA/" = ["ctxA", ""] ∧
    contextExists cfgA "ctxA" = true ∧
    quickSwitch cfgA ["ctxA/"] = some ⟨"ctxA", ""⟩ :=
  ⟨by decide, by decide, by decide⟩

/-- Claim C6 (amended): for a single argument splitting into exactly two
parts on the separator, quick-switch yields the target `(part1, part2)`
whenever `part1` names an existing context — the parts are not checked
for emptiness — and falls through to interactive mode (no target) when
`part1` names no context. -/
theorem quickswitch_slash_target (cfg : config) (a p1 p2 : String)
    (h : splitOnSlash a = [p1, p2]) :
    (contextExists cfg p1 = true → quickSwitch cfg [a] = some ⟨p1, p2⟩) ∧
    (contextExists cfg p1 = false → quickSwitch cfg [a] = none) := by
  constructor <;> intro hc <;>
    rw [quickSwitch_one_arg_two_parts cfg a p1 p2 h] <;> simp [hc]

/-- Witness for `quickswitch_slash_target` on `cfgA` and the argument
`ctxA/nsB`. -/
theorem quickswitch_slash_target_check :
    splitOnSlash "ctxA/nsB" = ["ctxA", "nsB"] ∧
    quickSwitch cfgA ["ctxA/nsB"] = some ⟨"ctxA", "nsB"⟩ := by
  refine ⟨by decide, ?_⟩
  exact (quickswitch_slash_target cfgA "ctxA/nsB" "ctxA" "nsB" (by decide)).1 (by decide)

/-- Claim C7: a single argument containing no separator is interpreted
as a bare namespace name within the currently active context. -/
theorem quickswitch_bare_namespace (cfg : config) (a : String)
    (h : (splitOnSlash a).length = 1) :
    quickSwitch cfg [a] = some ⟨cfg.ActiveContext, a⟩ :=
  quickSwitch_one_arg_no_sep cfg a h

/-- Witness for `quickswitch_bare_namespace`: argument `ns1` with active
context `ctx0` yields the target `(ctx0, ns1)`. -/
theorem quickswitch_bare_namespace_check :
    (splitOnSlash "ns1").length = 1 ∧
    quickSwitch cfgA ["ns1"] = some ⟨"ctx0", "ns1"⟩ :=
  ⟨by decide, quickswitch_bare_namespace cfgA "ns1" (by decide)⟩

/-- Claim C8: `contextExists` returns true exactly when the name appears
among the loaded configuration's context names, and false for every
other string, the empty string included. -/
theorem contextExists_spec (cfg : config) (name : String) :
    contextExists cfg name = true ↔ ∃ ctx ∈ cfg.Contexts, ctx.Name = name :=
  contextExistsIn_iff name cfg.Contexts

/-- Claim C9: a zero-length configuration file makes `loadConfig` fail
with the empty-file error; the failure is fatal, so the startup phase of
`main` never builds a selection tree, whatever the arguments. -/
theorem load_empty_file_fatal (parse : List Nat → Option config)
    (args : List String) :
    loadConfig (.ok []) parse = .error .emptyFile ∧
    mainBuildsTree (.ok []) parse args = none :=
  ⟨rfl, rfl⟩

/-- Claim C10: with a single separator-free argument the derived target
uses the loaded configuration's active context unconditionally — no
`contextExists` check is applied to it — so the switch is attempted even
when the active context names no existing entry, in which case
`switchContext` dereferences the nil map entry and panics. -/
theorem quickswitch_unchecked_active (cfg : config) (a : String) (raw : RawConfig)
    (h : (splitOnSlash a).length = 1)
    (_hghost : contextExists cfg cfg.ActiveContext = false)
    (hraw : lookupCtx cfg.ActiveContext raw.contexts = none) :
    quickSwitch cfg [a] = some ⟨cfg.ActiveContext, a⟩ ∧
    switchContext ⟨cfg.ActiveContext, a⟩ raw = .panicked :=
  ⟨quickSwitch_one_arg_no_sep cfg a h,
   switchContext_of_lookup_none ⟨cfg.ActiveContext, a⟩ raw hraw⟩

/-- Witness for `quickswitch_unchecked_active`: active context `ghost`
exists in neither `cfgGhost` nor `rawA`, yet the bare argument `ns1`
still yields the target `(ghost, ns1)` and the switch then panics. -/
theorem quickswitch_unchecked_active_check :
    (splitOnSlash "ns1").length = 1 ∧
    contextExists cfgGhost "ghost" = false ∧
    lookupCtx "ghost" rawA.contexts = none ∧
    quickSwitch cfgGhost ["ns1"] = some ⟨"ghost", "ns1"⟩ ∧
    switchContext ⟨"ghost", "ns1"⟩ rawA = .panicked := by
  refine ⟨by decide, by decide, by decide, ?_⟩
  exact quickswitch_unchecked_active cfgGhost "ns1" rawA
    (by decide) (by decide) (by decide)

end Kubeswitch
